import Mathlib

/-!
Shallow embedding of the PNG container core of the `maya` steganography
program (`src/filetype_support/png.rs`): chunk-type classification
predicates, the IHDR header-field parser, and the chunk stream reader
with its CRC-32 check, together with the pixel LSB codec and signature
check that the specification describes for parts of the repository not
present under `src/`.

Bytes are modelled as `Nat` values (< 256 in well-formed inputs), byte
buffers and streams as `List Nat`, and fallible Rust code as `Except`.
Rust's `io::Error` values are mapped to the specification's error kinds:
`read_exact` hitting end of input (`io::ErrorKind::UnexpectedEof`) is
`TruncatedStream`, and the `InvalidData "Invalid CRC"` error raised by
`read_chunk` is `ChecksumMismatch`.
-/

/-- `u32::from_be_bytes` on a 4-byte buffer: big-endian decoding. -/
def u32_from_be_bytes : List Nat → Nat
  | [a, b, c, d] => a * 2 ^ 24 + b * 2 ^ 16 + c * 2 ^ 8 + d
  | _ => 0

/-- `u32::to_be_bytes`: big-endian encoding of a 32-bit value. -/
def u32_to_be_bytes (x : Nat) : List Nat :=
  [x / 2 ^ 24 % 256, x / 2 ^ 16 % 256, x / 2 ^ 8 % 256, x % 256]

/-- One bit-step of the reflected CRC-32 (IEEE) algorithm: shift right,
conditionally xoring in the reflected polynomial `0xEDB88320`. -/
def crc32_round (crc : Nat) : Nat :=
  if crc % 2 = 1 then Nat.xor (crc / 2) 0xEDB88320 else crc / 2

/-- Iterate `crc32_round` a given number of times. -/
def crc32_rounds : Nat → Nat → Nat
  | 0, crc => crc
  | n + 1, crc => crc32_rounds n (crc32_round crc)

/-- Absorb one input byte into the CRC state (8 bit-steps). -/
def crc32_update (crc byte : Nat) : Nat :=
  crc32_rounds 8 (Nat.xor crc byte)

/-- `crc32::checksum_ieee`: CRC-32 (IEEE / ISO-HDLC) of a byte sequence,
with initial value and final xor `0xFFFFFFFF`. -/
def checksum_ieee (bytes : List Nat) : Nat :=
  Nat.xor (bytes.foldl crc32_update 0xFFFFFFFF) 0xFFFFFFFF

/-- `pub struct ChunkType(pub [u8; 4])`: an exact 4-byte chunk type code. -/
structure ChunkType where
  bytes : List Nat
deriving DecidableEq, Repr

/-- Image header chunk type, `*b"IHDR"`. -/
def IHDR : ChunkType := ⟨[0x49, 0x48, 0x44, 0x52]⟩

/-- Palette chunk type, `*b"PLTE"`. -/
def PLTE : ChunkType := ⟨[0x50, 0x4C, 0x54, 0x45]⟩

/-- Image data chunk type, `*b"IDAT"`. -/
def IDAT : ChunkType := ⟨[0x49, 0x44, 0x41, 0x54]⟩

/-- Image trailer chunk type, `*b"IEND"`. -/
def IEND : ChunkType := ⟨[0x49, 0x45, 0x4E, 0x44]⟩

/-- `is_critical`: true iff bit 5 (value 32) of byte 0 of the code is clear. -/
def is_critical (c : ChunkType) : Bool :=
  c.bytes.getD 0 0 &&& 32 == 0

/-- `is_private`: true iff bit 5 of byte 1 of the code is set. -/
def is_private (c : ChunkType) : Bool :=
  c.bytes.getD 1 0 &&& 32 != 0

/-- `reserved_set`: true iff bit 5 of byte 2 of the code is set. -/
def reserved_set (c : ChunkType) : Bool :=
  c.bytes.getD 2 0 &&& 32 != 0

/-- `safe_to_copy`: true iff bit 5 of byte 3 of the code is set. -/
def safe_to_copy (c : ChunkType) : Bool :=
  c.bytes.getD 3 0 &&& 32 != 0

/-- `pub struct IHDRData`: the decoded header fields. -/
structure IHDRData where
  width : Nat
  height : Nat
  bit_depth : Nat
  color_type : Nat
  compression_method : Nat
  filter_method : Nat
  interlace_method : Nat
deriving DecidableEq, Repr

/-- Outcome of `parse_ihdr`, which in Rust either returns an `IHDRData`
or panics on an out-of-bounds slice index. -/
inductive IhdrResult where
  | ok (v : IHDRData)
  | panic
deriving DecidableEq, Repr

/-- `parse_ihdr(data: &[u8]) -> IHDRData`: decodes the fields by fixed
byte offsets via direct slice indexing `data[0]` .. `data[12]`; each
index access out of bounds is a Rust panic, modelled as `IhdrResult.panic`. -/
def parse_ihdr (data : List Nat) : IhdrResult :=
  match (do
    let d0 ← data[0]?
    let d1 ← data[1]?
    let d2 ← data[2]?
    let d3 ← data[3]?
    let d4 ← data[4]?
    let d5 ← data[5]?
    let d6 ← data[6]?
    let d7 ← data[7]?
    let d8 ← data[8]?
    let d9 ← data[9]?
    let d10 ← data[10]?
    let d11 ← data[11]?
    let d12 ← data[12]?
    pure { width := u32_from_be_bytes [d0, d1, d2, d3]
           height := u32_from_be_bytes [d4, d5, d6, d7]
           bit_depth := d8
           color_type := d9
           compression_method := d10
           filter_method := d11
           interlace_method := d12 : IHDRData } : Option IHDRData) with
  | some v => IhdrResult.ok v
  | none => IhdrResult.panic

/-- The specification's error kinds, as the image of the Rust
`io::Error` values raised by the code: `read_exact` reaching end of
input is `TruncatedStream`; the `InvalidData "Invalid CRC"` error is
`ChecksumMismatch`. `InvalidSignature`, `PayloadTooLarge` and
`InsufficientCapacity` belong to the spec-modelled parts. -/
inductive PngError where
  | TruncatedStream
  | ChecksumMismatch
  | InvalidSignature
  | PayloadTooLarge
  | InsufficientCapacity
deriving DecidableEq, Repr

/-- Decidable equality for `Except`, so that concrete runs of the
fallible operations can be checked by `decide`. -/
instance instDecEqExcept {ε α : Type} [DecidableEq ε] [DecidableEq α] :
    DecidableEq (Except ε α)
  | Except.ok x, Except.ok y =>
    if h : x = y then isTrue (by rw [h])
    else isFalse (by intro he; cases he; exact h rfl)
  | Except.ok _, Except.error _ => isFalse (by intro h; cases h)
  | Except.error _, Except.ok _ => isFalse (by intro h; cases h)
  | Except.error e, Except.error f =>
    if h : e = f then isTrue (by rw [h])
    else isFalse (by intro he; cases he; exact h rfl)

/-- `Read::read_exact` over an in-memory stream: take exactly `n` bytes
or fail (`UnexpectedEof`, i.e. `TruncatedStream`); returns the bytes
read and the remaining stream. -/
def read_exact (s : List Nat) (n : Nat) : Except PngError (List Nat × List Nat) :=
  if n ≤ s.length then Except.ok (s.take n, s.drop n)
  else Except.error PngError.TruncatedStream

/-- `read_chunk<R: Read>`: read a 4-byte big-endian length, a 4-byte
type code, `length` data bytes and a 4-byte big-endian CRC, and check
the stored CRC against `crc32::checksum_ieee(&chunk_type.0)` — the
checksum of the type code bytes alone, as the source computes it.
Returns the parsed chunk and the remaining stream. -/
def read_chunk (s : List Nat) : Except PngError ((ChunkType × List Nat) × List Nat) := do
  let (length_bytes, s1) ← read_exact s 4
  let length := u32_from_be_bytes length_bytes
  let (type_bytes, s2) ← read_exact s1 4
  let chunk_type : ChunkType := ⟨type_bytes⟩
  let (data, s3) ← read_exact s2 length
  let (crc_bytes, s4) ← read_exact s3 4
  let crc := checksum_ieee chunk_type.bytes
  let expected_crc := u32_from_be_bytes crc_bytes
  if crc ≠ expected_crc then
    Except.error PngError.ChecksumMismatch
  else
    Except.ok ((chunk_type, data), s4)

/-- `const PNG_MAGIC: [u8; 8]`: the 8-byte PNG magic signature. -/
def PNG_MAGIC : List Nat := [0x89, 0x50, 0x4E, 0x47, 0x0D, 0x0A, 0x1A, 0x0A]

/-- Modelled from the spec: the signature check of the container parser
is not under `src/` (only the `PNG_MAGIC` constant is); per the spec the
8-byte magic signature is checked once, before any chunk is read, and a
stream not beginning with the exact signature fails with
`InvalidSignature`. Returns the stream positioned after the signature. -/
def check_signature (s : List Nat) : Except PngError (List Nat) :=
  if s.take 8 = PNG_MAGIC then Except.ok (s.drop 8)
  else Except.error PngError.InvalidSignature

/-- Modelled from the spec: the container parse step that validates the
signature and then reads the first chunk; chunk reading happens only
after the single signature check. -/
def read_first_chunk (s : List Nat) : Except PngError ((ChunkType × List Nat) × List Nat) := do
  let rest ← check_signature s
  read_chunk rest

/-- Overwrite the least-significant bit of a channel byte with a payload
bit, leaving all higher-order bits unchanged. -/
def set_lsb (byte : Nat) (bit : Bool) : Nat :=
  2 * (byte / 2) + (if bit then 1 else 0)

/-- Traversal core of the embedder: write each payload bit, in order,
into the LSB of the next channel byte, left to right. -/
def embed_bits : List Nat → List Bool → List Nat
  | pixels, [] => pixels
  | [], _ => []
  | p :: pixels, b :: bits => set_lsb p b :: embed_bits pixels bits

/-- Modelled from the spec: `embed_lsb_data_left_right` lives in
`file_encoding_support/pixel.rs`, which is not under `src/`; per the
spec it overwrites the least-significant bit of successive channel
bytes, left to right, with the payload bits, failing with
`PayloadTooLarge` when the payload bit count exceeds the channel-byte
capacity. -/
def embed_lsb_data_left_right (pixels : List Nat) (bits : List Bool) :
    Except PngError (List Nat) :=
  if pixels.length < bits.length then Except.error PngError.PayloadTooLarge
  else Except.ok (embed_bits pixels bits)

/-- Modelled from the spec: `extract_lsb_data_left_right` lives in
`file_encoding_support/pixel.rs`, which is not under `src/`; per the
spec it reads the least-significant bit of each channel byte in the
same left-to-right traversal order, producing exactly `bit_count` bits,
failing with `InsufficientCapacity` when `bit_count` exceeds the
available channel bytes. -/
def extract_lsb_data_left_right (pixels : List Nat) (bit_count : Nat) :
    Except PngError (List Bool) :=
  if pixels.length < bit_count then Except.error PngError.InsufficientCapacity
  else Except.ok ((pixels.take bit_count).map (fun p => p % 2 == 1))

/-! ## Helper lemmas -/

lemma and_32_eq (n : Nat) : n &&& 32 = if n.testBit 5 then 32 else 0 := by
  have h := Nat.and_two_pow n 5
  norm_num at h
  rcases hb : n.testBit 5 <;> simp [hb] at h <;> simp [h, hb]

lemma list_exists_thirteen (data : List Nat) (h : 13 ≤ data.length) :
    ∃ d0 d1 d2 d3 d4 d5 d6 d7 d8 d9 d10 d11 d12 rest,
      data = d0 :: d1 :: d2 :: d3 :: d4 :: d5 :: d6 :: d7 :: d8 :: d9 ::
        d10 :: d11 :: d12 :: rest := by
  rcases data with _ | ⟨d0, data⟩; · simp at h
  rcases data with _ | ⟨d1, data⟩; · simp at h
  rcases data with _ | ⟨d2, data⟩; · simp at h
  rcases data with _ | ⟨d3, data⟩; · simp at h
  rcases data with _ | ⟨d4, data⟩; · simp at h
  rcases data with _ | ⟨d5, data⟩; · simp at h
  rcases data with _ | ⟨d6, data⟩; · simp at h
  rcases data with _ | ⟨d7, data⟩; · simp at h
  rcases data with _ | ⟨d8, data⟩; · simp at h
  rcases data with _ | ⟨d9, data⟩; · simp at h
  rcases data with _ | ⟨d10, data⟩; · simp at h
  rcases data with _ | ⟨d11, data⟩; · simp at h
  rcases data with _ | ⟨d12, data⟩; · simp at h
  exact ⟨d0, d1, d2, d3, d4, d5, d6, d7, d8, d9, d10, d11, d12, data, rfl⟩

lemma parse_ihdr_cons (d0 d1 d2 d3 d4 d5 d6 d7 d8 d9 d10 d11 d12 : Nat)
    (rest : List Nat) :
    parse_ihdr (d0 :: d1 :: d2 :: d3 :: d4 :: d5 :: d6 :: d7 :: d8 :: d9 ::
        d10 :: d11 :: d12 :: rest) =
      IhdrResult.ok
        { width := u32_from_be_bytes [d0, d1, d2, d3]
          height := u32_from_be_bytes [d4, d5, d6, d7]
          bit_depth := d8
          color_type := d9
          compression_method := d10
          filter_method := d11
          interlace_method := d12 } := by
  simp [parse_ihdr]

lemma parse_ihdr_of_lt (data : List Nat) (h : data.length < 13) :
    parse_ihdr data = IhdrResult.panic := by
  rcases data with _ | ⟨d0, data⟩; · simp [parse_ihdr]
  rcases data with _ | ⟨d1, data⟩; · simp [parse_ihdr]
  rcases data with _ | ⟨d2, data⟩; · simp [parse_ihdr]
  rcases data with _ | ⟨d3, data⟩; · simp [parse_ihdr]
  rcases data with _ | ⟨d4, data⟩; · simp [parse_ihdr]
  rcases data with _ | ⟨d5, data⟩; · simp [parse_ihdr]
  rcases data with _ | ⟨d6, data⟩; · simp [parse_ihdr]
  rcases data with _ | ⟨d7, data⟩; · simp [parse_ihdr]
  rcases data with _ | ⟨d8, data⟩; · simp [parse_ihdr]
  rcases data with _ | ⟨d9, data⟩; · simp [parse_ihdr]
  rcases data with _ | ⟨d10, data⟩; · simp [parse_ihdr]
  rcases data with _ | ⟨d11, data⟩; · simp [parse_ihdr]
  rcases data with _ | ⟨d12, data⟩; · simp [parse_ihdr]
  exfalso
  simp at h
  omega

lemma except_ok_bind {α β : Type} (x : α) (f : α → Except PngError β) :
    (Except.ok x : Except PngError α) >>= f = f x := rfl

lemma except_error_bind {α β : Type} (e : PngError) (f : α → Except PngError β) :
    (Except.error e : Except PngError α) >>= f = Except.error e := rfl

lemma read_exact_eq_ok (s : List Nat) (n : Nat) (h : n ≤ s.length) :
    read_exact s n = Except.ok (s.take n, s.drop n) := by
  simp [read_exact, h]

lemma read_exact_eq_err (s : List Nat) (n : Nat) (h : s.length < n) :
    read_exact s n = Except.error PngError.TruncatedStream := by
  rw [read_exact, if_neg]
  omega

lemma read_exact_append (l rest : List Nat) (n : Nat) (h : l.length = n) :
    read_exact (l ++ rest) n = Except.ok (l, rest) := by
  rw [read_exact, if_pos (by simp; omega), List.take_left' h, List.drop_left' h]

lemma read_exact_exact (l : List Nat) (n : Nat) (h : l.length = n) :
    read_exact l n = Except.ok (l, []) := by
  subst h
  simp [read_exact]

lemma read_chunk_ok_inv (s : List Nat) (ct : ChunkType) (data rest : List Nat)
    (h : read_chunk s = Except.ok ((ct, data), rest)) :
    4 + 4 + u32_from_be_bytes (s.take 4) + 4 ≤ s.length ∧
    ct = ⟨(s.drop 4).take 4⟩ ∧
    data = ((s.drop 4).drop 4).take (u32_from_be_bytes (s.take 4)) ∧
    rest = s.drop (4 + 4 + u32_from_be_bytes (s.take 4) + 4) := by
  by_cases h4 : 4 ≤ s.length
  · simp only [read_chunk, read_exact_eq_ok s 4 h4, except_ok_bind] at h
    by_cases h8 : 4 ≤ (s.drop 4).length
    · simp only [read_exact_eq_ok (s.drop 4) 4 h8, except_ok_bind] at h
      by_cases hd : u32_from_be_bytes (s.take 4) ≤ ((s.drop 4).drop 4).length
      · simp only [read_exact_eq_ok _ _ hd, except_ok_bind] at h
        by_cases hc : 4 ≤ (((s.drop 4).drop 4).drop (u32_from_be_bytes (s.take 4))).length
        · simp only [read_exact_eq_ok _ _ hc, except_ok_bind] at h
          split at h
          · cases h
          · simp only [Except.ok.injEq, Prod.mk.injEq] at h
            obtain ⟨⟨hct, hdata⟩, hrest⟩ := h
            simp only [List.length_drop] at h8 hd hc
            refine ⟨by omega, hct.symm, hdata.symm, ?_⟩
            rw [← hrest, List.drop_drop, List.drop_drop, List.drop_drop]
            congr 1
            omega
        · rw [read_exact_eq_err _ _ (by omega)] at h
          cases h
      · rw [read_exact_eq_err _ _ (by omega)] at h
        cases h
    · rw [read_exact_eq_err _ _ (by omega)] at h
      cases h
  · simp only [read_chunk, read_exact_eq_err s 4 (by omega), except_error_bind] at h
    cases h

lemma crc32_round_lt (x : Nat) (h : x < 2 ^ 32) : crc32_round x < 2 ^ 32 := by
  rw [crc32_round]
  split
  · exact Nat.xor_lt_two_pow (by omega) (by norm_num)
  · omega

lemma crc32_rounds_lt (n x : Nat) (h : x < 2 ^ 32) : crc32_rounds n x < 2 ^ 32 := by
  induction n generalizing x with
  | zero => simpa [crc32_rounds]
  | succ n ih => exact ih _ (crc32_round_lt _ h)

lemma crc32_update_lt (crc byte : Nat) (hc : crc < 2 ^ 32) (hb : byte < 256) :
    crc32_update crc byte < 2 ^ 32 :=
  crc32_rounds_lt 8 _ (Nat.xor_lt_two_pow hc (by omega))

lemma foldl_crc32_update_lt (bytes : List Nat) (crc : Nat) (hc : crc < 2 ^ 32)
    (hb : ∀ b ∈ bytes, b < 256) :
    bytes.foldl crc32_update crc < 2 ^ 32 := by
  induction bytes generalizing crc with
  | nil => simpa
  | cons x xs ih =>
    exact ih _ (crc32_update_lt _ _ hc (hb x (by simp)))
      (fun b hmem => hb b (by simp [hmem]))

lemma checksum_ieee_lt (bytes : List Nat) (hb : ∀ b ∈ bytes, b < 256) :
    checksum_ieee bytes < 2 ^ 32 :=
  Nat.xor_lt_two_pow (foldl_crc32_update_lt bytes _ (by norm_num) hb) (by norm_num)

lemma u32_from_to (x : Nat) (h : x < 2 ^ 32) :
    u32_from_be_bytes (u32_to_be_bytes x) = x := by
  simp only [u32_to_be_bytes, u32_from_be_bytes]
  omega

/-! ## Claim theorems: chunk-type classification and header parsing -/

/-- C5: for every 4-byte type code, `is_critical` is true iff bit 5
(value 32) of byte 0 is clear, `is_private` iff bit 5 of byte 1 is set,
`reserved_set` iff bit 5 of byte 2 is set, `safe_to_copy` iff bit 5 of
byte 3 is set; `is_critical IDAT` is true; and any code with bit 5 set
in both byte 0 and byte 1 is non-critical and private. -/
theorem chunk_type_bit5_classification :
    (∀ c : ChunkType,
      (is_critical c = true ↔ Nat.testBit (c.bytes.getD 0 0) 5 = false) ∧
      (is_private c = true ↔ Nat.testBit (c.bytes.getD 1 0) 5 = true) ∧
      (reserved_set c = true ↔ Nat.testBit (c.bytes.getD 2 0) 5 = true) ∧
      (safe_to_copy c = true ↔ Nat.testBit (c.bytes.getD 3 0) 5 = true)) ∧
    is_critical IDAT = true ∧
    (∀ c : ChunkType,
      Nat.testBit (c.bytes.getD 0 0) 5 = true →
      Nat.testBit (c.bytes.getD 1 0) 5 = true →
      is_critical c = false ∧ is_private c = true) := by
  refine ⟨fun c => ⟨?_, ?_, ?_, ?_⟩, by decide, fun c h0 h1 => ⟨?_, ?_⟩⟩
  · rw [is_critical, and_32_eq]
    rcases hb : Nat.testBit (c.bytes.getD 0 0) 5 <;> simp [hb]
  · rw [is_private, and_32_eq]
    rcases hb : Nat.testBit (c.bytes.getD 1 0) 5 <;> simp [hb]
  · rw [reserved_set, and_32_eq]
    rcases hb : Nat.testBit (c.bytes.getD 2 0) 5 <;> simp [hb]
  · rw [safe_to_copy, and_32_eq]
    rcases hb : Nat.testBit (c.bytes.getD 3 0) 5 <;> simp [hb]
  · rw [is_critical, and_32_eq, h0]
    simp
  · rw [is_private, and_32_eq, h1]
    simp

/-- Witness for C5 at the synthetic private ancillary code
`[0x61, 0x70, 0x70, 0x6C]` (bit 5 set in bytes 0 and 1). -/
theorem chunk_type_bit5_classification_witness :
    Nat.testBit 0x61 5 = true ∧ Nat.testBit 0x70 5 = true ∧
    (is_critical ⟨[0x61, 0x70, 0x70, 0x6C]⟩ = false ∧
     is_private ⟨[0x61, 0x70, 0x70, 0x6C]⟩ = true) :=
  ⟨by decide, by decide,
    chunk_type_bit5_classification.2.2 ⟨[0x61, 0x70, 0x70, 0x6C]⟩
      (by decide) (by decide)⟩

/-- C4: on any input of at least 13 bytes, `parse_ihdr` decodes width
from bytes 0–3 (big-endian), height from bytes 4–7 (big-endian), and
bit depth, color type, compression method, filter method, interlace
method from bytes 8–12; in particular the 13-byte example data yields
`width = 16, height = 32, bit_depth = 8, color_type = 2` and zero
compression, filter and interlace methods. -/
theorem parse_ihdr_field_layout :
    (∀ data : List Nat, 13 ≤ data.length →
      parse_ihdr data = IhdrResult.ok
        { width := u32_from_be_bytes (data.take 4)
          height := u32_from_be_bytes ((data.drop 4).take 4)
          bit_depth := data.getD 8 0
          color_type := data.getD 9 0
          compression_method := data.getD 10 0
          filter_method := data.getD 11 0
          interlace_method := data.getD 12 0 }) ∧
    parse_ihdr [0x00, 0x00, 0x00, 0x10, 0x00, 0x00, 0x00, 0x20,
        0x08, 0x02, 0x00, 0x00, 0x00] =
      IhdrResult.ok ⟨16, 32, 8, 2, 0, 0, 0⟩ := by
  constructor
  · intro data h
    obtain ⟨d0, d1, d2, d3, d4, d5, d6, d7, d8, d9, d10, d11, d12, rest, rfl⟩ :=
      list_exists_thirteen data h
    rw [parse_ihdr_cons]
    simp
  · decide

/-- Witness for C4 at the spec's concrete 13-byte header data. -/
theorem parse_ihdr_field_layout_witness :
    13 ≤ ([0x00, 0x00, 0x00, 0x10, 0x00, 0x00, 0x00, 0x20,
        0x08, 0x02, 0x00, 0x00, 0x00] : List Nat).length ∧
    parse_ihdr [0x00, 0x00, 0x00, 0x10, 0x00, 0x00, 0x00, 0x20,
        0x08, 0x02, 0x00, 0x00, 0x00] =
      IhdrResult.ok
        { width := u32_from_be_bytes (([0x00, 0x00, 0x00, 0x10, 0x00, 0x00, 0x00, 0x20,
              0x08, 0x02, 0x00, 0x00, 0x00] : List Nat).take 4)
          height := u32_from_be_bytes ((([0x00, 0x00, 0x00, 0x10, 0x00, 0x00, 0x00, 0x20,
              0x08, 0x02, 0x00, 0x00, 0x00] : List Nat).drop 4).take 4)
          bit_depth := 8
          color_type := 2
          compression_method := 0
          filter_method := 0
          interlace_method := 0 } :=
  ⟨by decide,
    parse_ihdr_field_layout.1 [0x00, 0x00, 0x00, 0x10, 0x00, 0x00, 0x00, 0x20,
      0x08, 0x02, 0x00, 0x00, 0x00] (by decide)⟩

/-- C3 counterexample: at the concrete empty input (length 0 < 13) the
header parser panics on an out-of-bounds index — it aborts rather than
returning a `MalformedHeader` error; the function has no error-return
path at all. -/
theorem parse_ihdr_empty_input_panics_cex :
    parse_ihdr [] = IhdrResult.panic := by
  decide

/-- C3 amended: for every input byte sequence of length less than 13,
the header field parser aborts with an out-of-bounds index panic (there
is no `MalformedHeader` error path in the code). -/
theorem parse_ihdr_short_input_panics (data : List Nat) (h : data.length < 13) :
    parse_ihdr data = IhdrResult.panic :=
  parse_ihdr_of_lt data h

/-- Witness for the amended C3 at the concrete 3-byte input. -/
theorem parse_ihdr_short_input_panics_witness :
    ([0, 1, 2] : List Nat).length < 13 ∧
    parse_ihdr [0, 1, 2] = IhdrResult.panic :=
  ⟨by decide, parse_ihdr_short_input_panics [0, 1, 2] (by decide)⟩

/-- C10: the header parser's output depends on no byte beyond index 12 —
any two inputs of length at least 13 that agree on bytes 0 through 12
parse to identical field values. -/
theorem parse_ihdr_depends_only_on_first_thirteen :
    ∀ x y : List Nat, 13 ≤ x.length → 13 ≤ y.length →
      x.take 13 = y.take 13 → parse_ihdr x = parse_ihdr y := by
  intro x y hx hy hxy
  obtain ⟨a0, a1, a2, a3, a4, a5, a6, a7, a8, a9, a10, a11, a12, restx, rfl⟩ :=
    list_exists_thirteen x hx
  obtain ⟨b0, b1, b2, b3, b4, b5, b6, b7, b8, b9, b10, b11, b12, resty, rfl⟩ :=
    list_exists_thirteen y hy
  simp [List.take] at hxy
  obtain ⟨rfl, rfl, rfl, rfl, rfl, rfl, rfl, rfl, rfl, rfl, rfl, rfl, rfl⟩ := hxy
  rw [parse_ihdr_cons, parse_ihdr_cons]

/-- Witness for C10 at two concrete inputs agreeing on their first 13
bytes and differing afterwards. -/
theorem parse_ihdr_depends_only_on_first_thirteen_witness :
    13 ≤ ([0, 0, 0, 1, 0, 0, 0, 2, 8, 0, 0, 0, 0, 7] : List Nat).length ∧
    13 ≤ ([0, 0, 0, 1, 0, 0, 0, 2, 8, 0, 0, 0, 0, 9, 9] : List Nat).length ∧
    ([0, 0, 0, 1, 0, 0, 0, 2, 8, 0, 0, 0, 0, 7] : List Nat).take 13 =
      ([0, 0, 0, 1, 0, 0, 0, 2, 8, 0, 0, 0, 0, 9, 9] : List Nat).take 13 ∧
    parse_ihdr [0, 0, 0, 1, 0, 0, 0, 2, 8, 0, 0, 0, 0, 7] =
      parse_ihdr [0, 0, 0, 1, 0, 0, 0, 2, 8, 0, 0, 0, 0, 9, 9] :=
  ⟨by decide, by decide, by decide,
    parse_ihdr_depends_only_on_first_thirteen
      [0, 0, 0, 1, 0, 0, 0, 2, 8, 0, 0, 0, 0, 7]
      [0, 0, 0, 1, 0, 0, 0, 2, 8, 0, 0, 0, 0, 9, 9]
      (by decide) (by decide) (by decide)⟩

/-! ## Claim theorems: chunk stream codec -/

/-- C1 evidence: for a concrete record whose stored checksum is the one
the code accepts (the CRC-32 of the type code), flipping its single data
byte from `0x00` to `0x01` does not cause `read_chunk` to fail with a
checksum mismatch — both reads succeed, because the code checksums the
type code alone. -/
theorem read_chunk_accepts_flipped_data :
    read_chunk ([0, 0, 0, 1] ++ [0x49, 0x48, 0x44, 0x52] ++ [0x00] ++
        [168, 161, 174, 10]) = Except.ok ((IHDR, [0x00]), []) ∧
    read_chunk ([0, 0, 0, 1] ++ [0x49, 0x48, 0x44, 0x52] ++ [0x01] ++
        [168, 161, 174, 10]) = Except.ok ((IHDR, [0x01]), []) ∧
    [168, 161, 174, 10] = u32_to_be_bytes (checksum_ieee [0x49, 0x48, 0x44, 0x52]) :=
  ⟨by decide, by decide, by decide⟩

/-- C2: the checksum `read_chunk` compares against the stored 4-byte
big-endian value is CRC-32 (IEEE) of the 4-byte type code alone: any
chunk whose stored checksum equals `checksum_ieee` of its type code is
read successfully regardless of the content of its data bytes; and a
chunk whose stored checksum is instead computed over type+data (the
corrected design) is rejected with `ChecksumMismatch`. -/
theorem read_chunk_checksum_over_type_only :
    (∀ length_bytes type_bytes data : List Nat,
      length_bytes.length = 4 → type_bytes.length = 4 →
      (∀ b ∈ type_bytes, b < 256) →
      data.length = u32_from_be_bytes length_bytes →
      read_chunk (length_bytes ++ type_bytes ++ data ++
          u32_to_be_bytes (checksum_ieee type_bytes)) =
        Except.ok ((⟨type_bytes⟩, data), [])) ∧
    read_chunk ([0, 0, 0, 1] ++ [0x49, 0x48, 0x44, 0x52] ++ [0x00] ++
        u32_to_be_bytes (checksum_ieee [0x49, 0x48, 0x44, 0x52, 0x00])) =
      Except.error PngError.ChecksumMismatch := by
  constructor
  · intro lb tb data hlb htb hb hdata
    have hcrc : checksum_ieee tb < 2 ^ 32 := checksum_ieee_lt tb hb
    simp only [read_chunk, List.append_assoc]
    rw [read_exact_append lb _ 4 hlb]
    simp only [except_ok_bind]
    rw [read_exact_append tb _ _ htb]
    simp only [except_ok_bind]
    rw [read_exact_append data _ _ hdata]
    simp only [except_ok_bind]
    rw [read_exact_exact _ 4 (by simp [u32_to_be_bytes])]
    simp only [except_ok_bind]
    rw [u32_from_to _ hcrc]
    simp
  · decide

/-- Witness for C2 at a concrete record: length 1, type `IHDR`, data
byte `0x37`, stored checksum `checksum_ieee` of the type code. -/
theorem read_chunk_checksum_over_type_only_witness :
    ([0, 0, 0, 1] : List Nat).length = 4 ∧
    ([0x49, 0x48, 0x44, 0x52] : List Nat).length = 4 ∧
    (∀ b ∈ ([0x49, 0x48, 0x44, 0x52] : List Nat), b < 256) ∧
    ([0x37] : List Nat).length = u32_from_be_bytes [0, 0, 0, 1] ∧
    read_chunk ([0, 0, 0, 1] ++ [0x49, 0x48, 0x44, 0x52] ++ [0x37] ++
        u32_to_be_bytes (checksum_ieee [0x49, 0x48, 0x44, 0x52])) =
      Except.ok ((⟨[0x49, 0x48, 0x44, 0x52]⟩, [0x37]), []) :=
  ⟨by decide, by decide, by decide, by decide,
    read_chunk_checksum_over_type_only.1 [0, 0, 0, 1] [0x49, 0x48, 0x44, 0x52]
      [0x37] (by decide) (by decide) (by decide) (by decide)⟩

/-- C6: `read_chunk` consumes exactly `4 + 4 + length + 4` bytes —
`length` being the big-endian value of the first 4 bytes — leaving
precisely the rest of the stream, and fails with `TruncatedStream`
whenever fewer bytes remain than required at any of its four reads
(length, type, data, checksum). -/
theorem read_chunk_consumes_exactly :
    ∀ s : List Nat,
      (∀ ct data rest, read_chunk s = Except.ok ((ct, data), rest) →
        s.length = 4 + 4 + u32_from_be_bytes (s.take 4) + 4 + rest.length ∧
        rest = s.drop (4 + 4 + u32_from_be_bytes (s.take 4) + 4)) ∧
      (s.length < 4 + 4 + u32_from_be_bytes (s.take 4) + 4 →
        read_chunk s = Except.error PngError.TruncatedStream) := by
  intro s
  constructor
  · intro ct data rest h
    obtain ⟨hle, _, _, hrest⟩ := read_chunk_ok_inv s ct data rest h
    refine ⟨?_, hrest⟩
    subst hrest
    simp only [List.length_drop]
    omega
  · intro hlt
    by_cases h4 : 4 ≤ s.length
    · simp only [read_chunk, read_exact_eq_ok s 4 h4, except_ok_bind]
      by_cases h8 : 4 ≤ (s.drop 4).length
      · simp only [read_exact_eq_ok (s.drop 4) 4 h8, except_ok_bind]
        by_cases hd : u32_from_be_bytes (s.take 4) ≤ ((s.drop 4).drop 4).length
        · simp only [read_exact_eq_ok _ _ hd, except_ok_bind]
          have hc : (((s.drop 4).drop 4).drop (u32_from_be_bytes (s.take 4))).length < 4 := by
            simp only [List.length_drop] at h8 hd ⊢
            omega
          rw [read_exact_eq_err _ _ hc]
          rfl
        · rw [read_exact_eq_err _ _ (by omega)]
          rfl
      · rw [read_exact_eq_err _ _ (by omega)]
        rfl
    · simp only [read_chunk, read_exact_eq_err s 4 (by omega), except_error_bind]

/-- Witness for C6: exact consumption on a concrete well-formed chunk
stream, and `TruncatedStream` on a concrete 3-byte stream. -/
theorem read_chunk_consumes_exactly_witness :
    (([0, 0, 0, 1, 0x49, 0x48, 0x44, 0x52, 0x00, 168, 161, 174, 10] : List Nat).length
      = 4 + 4 + u32_from_be_bytes (([0, 0, 0, 1, 0x49, 0x48, 0x44, 0x52, 0x00,
          168, 161, 174, 10] : List Nat).take 4) + 4 + ([] : List Nat).length) ∧
    read_chunk [0, 0, 0] = Except.error PngError.TruncatedStream :=
  ⟨((read_chunk_consumes_exactly
        [0, 0, 0, 1, 0x49, 0x48, 0x44, 0x52, 0x00, 168, 161, 174, 10]).1
      IHDR [0x00] [] (by decide)).1,
    (read_chunk_consumes_exactly [0, 0, 0]).2 (by decide)⟩

/-- C7: whenever `read_chunk` succeeds, the data byte sequence it
returns has exactly the length declared by the big-endian length field
at the head of the stream. -/
theorem read_chunk_data_length :
    ∀ s : List Nat, ∀ ct : ChunkType, ∀ data rest : List Nat,
      read_chunk s = Except.ok ((ct, data), rest) →
      data.length = u32_from_be_bytes (s.take 4) := by
  intro s ct data rest h
  obtain ⟨hle, _, hdata, _⟩ := read_chunk_ok_inv s ct data rest h
  subst hdata
  simp only [List.length_take, List.length_drop]
  omega

/-- Witness for C7 at a concrete successful chunk read. -/
theorem read_chunk_data_length_witness :
    ([0x00] : List Nat).length =
      u32_from_be_bytes (([0, 0, 0, 1, 0x49, 0x48, 0x44, 0x52, 0x00,
          168, 161, 174, 10] : List Nat).take 4) :=
  read_chunk_data_length
    [0, 0, 0, 1, 0x49, 0x48, 0x44, 0x52, 0x00, 168, 161, 174, 10]
    IHDR [0x00] [] (by decide)

/-! ## Claim theorems: pixel LSB codec and signature check -/

lemma set_lsb_mod_two (p : Nat) (b : Bool) :
    set_lsb p b % 2 = if b then 1 else 0 := by
  rcases b
  · simp [set_lsb]
  · simp [set_lsb]
    omega

lemma set_lsb_div_two (p : Nat) (b : Bool) : set_lsb p b / 2 = p / 2 := by
  rcases b
  · simp [set_lsb]
  · simp [set_lsb]
    omega

lemma embed_bits_length (P : List Nat) (B : List Bool) :
    (embed_bits P B).length = P.length := by
  induction P generalizing B with
  | nil => cases B <;> simp [embed_bits]
  | cons p ps ih =>
    cases B with
    | nil => simp [embed_bits]
    | cons b bs => simp [embed_bits, ih]

lemma embed_bits_extract (P : List Nat) (B : List Bool) (h : B.length ≤ P.length) :
    ((embed_bits P B).take B.length).map (fun p => p % 2 == 1) = B := by
  induction P generalizing B with
  | nil =>
    cases B with
    | nil => simp [embed_bits]
    | cons b bs => simp at h
  | cons p ps ih =>
    cases B with
    | nil => simp [embed_bits]
    | cons b bs =>
      simp only [embed_bits, List.length_cons, List.take_succ_cons, List.map_cons]
      rw [ih bs (by simpa using h)]
      rcases b <;> simp [set_lsb_mod_two]

lemma embed_bits_getD_div (P : List Nat) (B : List Bool) (i : Nat) :
    (embed_bits P B).getD i 0 / 2 = P.getD i 0 / 2 := by
  induction P generalizing B i with
  | nil => cases B <;> simp [embed_bits]
  | cons p ps ih =>
    cases B with
    | nil => simp [embed_bits]
    | cons b bs =>
      cases i with
      | zero => simpa [embed_bits] using set_lsb_div_two p b
      | succ j => simpa [embed_bits] using ih bs j

lemma embed_bits_getD_untouched (P : List Nat) (B : List Bool) (i : Nat)
    (h : B.length ≤ i) :
    (embed_bits P B).getD i 0 = P.getD i 0 := by
  induction P generalizing B i with
  | nil => cases B <;> simp [embed_bits]
  | cons p ps ih =>
    cases B with
    | nil => simp [embed_bits]
    | cons b bs =>
      cases i with
      | zero => simp at h
      | succ j => simpa [embed_bits] using ih bs j (by simpa using h)

/-- C8: for every pixel-channel byte sequence `P` and bit sequence `B`
with `B.length ≤ P.length` (the capacity), embedding succeeds, extracting
`B.length` bits from the embedded result yields exactly `B`, every
channel byte of the embedded result keeps all bits above the
least-significant bit (its value divided by 2 is unchanged), and the
bytes beyond the embedded region are entirely unchanged. -/
theorem embed_extract_roundtrip :
    ∀ (P : List Nat) (B : List Bool), B.length ≤ P.length →
      embed_lsb_data_left_right P B = Except.ok (embed_bits P B) ∧
      extract_lsb_data_left_right (embed_bits P B) B.length = Except.ok B ∧
      (∀ i, (embed_bits P B).getD i 0 / 2 = P.getD i 0 / 2) ∧
      (∀ i, B.length ≤ i → (embed_bits P B).getD i 0 = P.getD i 0) := by
  intro P B h
  refine ⟨?_, ?_, fun i => embed_bits_getD_div P B i,
    fun i hi => embed_bits_getD_untouched P B i hi⟩
  · rw [embed_lsb_data_left_right, if_neg (by omega)]
  · rw [extract_lsb_data_left_right, if_neg (by rw [embed_bits_length]; omega),
      embed_bits_extract P B h]

/-- Witness for C8 at the concrete channel bytes `[4, 7, 9]` and payload
bits `[true, false]`. -/
theorem embed_extract_roundtrip_witness :
    ([true, false] : List Bool).length ≤ ([4, 7, 9] : List Nat).length ∧
    extract_lsb_data_left_right (embed_bits [4, 7, 9] [true, false]) 2 =
      Except.ok [true, false] :=
  ⟨by decide, (embed_extract_roundtrip [4, 7, 9] [true, false] (by decide)).2.1⟩

/-- C9: the 8-byte magic signature is validated once, before any chunk
is read — a stream whose first 8 bytes are not exactly `PNG_MAGIC` fails
with `InvalidSignature`, and on a stream that does begin with the
signature the parse continues as a plain chunk read on the remainder. -/
theorem signature_checked_before_chunks :
    ∀ s : List Nat,
      (s.take 8 ≠ PNG_MAGIC → read_first_chunk s = Except.error PngError.InvalidSignature) ∧
      (s.take 8 = PNG_MAGIC → read_first_chunk s = read_chunk (s.drop 8)) := by
  intro s
  constructor
  · intro h
    simp [read_first_chunk, check_signature, h, except_error_bind]
  · intro h
    simp [read_first_chunk, check_signature, h, except_ok_bind]

/-- Witness for C9 at a concrete stream with a corrupted first
signature byte. -/
theorem signature_checked_before_chunks_witness :
    ([0x88, 0x50, 0x4E, 0x47, 0x0D, 0x0A, 0x1A, 0x0A] : List Nat).take 8 ≠ PNG_MAGIC ∧
    read_first_chunk [0x88, 0x50, 0x4E, 0x47, 0x0D, 0x0A, 0x1A, 0x0A] =
      Except.error PngError.InvalidSignature :=
  ⟨by decide,
    (signature_checked_before_chunks
        [0x88, 0x50, 0x4E, 0x47, 0x0D, 0x0A, 0x1A, 0x0A]).1 (by decide)⟩
